import Mathlib

/-!
Verification development for a SMART-on-FHIR launch client (Svelte/TypeScript).

The development shallowly embeds the two behavioural cores of the repository:

* the launch controller (`onMount` of the app component): launch-takeover
  detection, session restoration, authorization-code exchange and the fresh
  authorization redirect, over a `localStorage`-backed `Store`;
* the observation feed (`ObservationViewer`): cached fetch, server-side
  pagination with client-side windowing, value formatting (`bpDisplay`),
  optimistic create with delayed reconciliation.

JavaScript peculiarities that the source relies on are modelled explicitly:
`parseFloat` prefix parsing, `NaN` comparator results in `Array.prototype.sort`
(coerced to `+0` by `SortCompare`, i.e. a tie), string truthiness (`""` is
falsy) and template-literal stringification of numbers.  Network effects are
passed in as explicit oracle arguments (the response a given `axios` call
would produce), and `Date` instants are represented by their parsed epoch
value (`Option Int`, `none` standing for a missing or unparseable
`effectiveDateTime`, whose `new Date(...).getTime()` is `NaN`).
-/

/-- Model of a JavaScript number as far as this program can observe it:
`NaN`, signed infinity, or a finite decimal value `n / 10 ^ k` kept in lowest
decimal terms (`k = 0` or `n` not divisible by ten).  All finite numbers this
program manipulates come from decimal literals via `parseFloat` and are only
re-rendered, never computed with, so the exact-decimal representation agrees
with IEEE doubles on everything observable here. -/
inductive JsNumber where
  | nan : JsNumber
  | inf : Bool → JsNumber
  | num : Int → Nat → JsNumber
deriving DecidableEq

/-- Remove common factors of ten from a decimal mantissa/exponent pair. -/
def stripTens : Int → Nat → Int × Nat
  | n, 0 => (n, 0)
  | n, k + 1 => if n % 10 == 0 then stripTens (n / 10) k else (n, k + 1)

/-- Finite JS number `n / 10 ^ k`, normalized to lowest decimal terms. -/
def mkNum (n : Int) (k : Nat) : JsNumber :=
  .num (stripTens n k).1 (stripTens n k).2

/-- Characters treated as whitespace by JavaScript string trimming
(`parseFloat` skips leading `StrWhiteSpace`): tab, LF, VT, FF, CR, space,
NBSP and the BOM. -/
def isJsSpace (c : Char) : Bool :=
  c.toNat = 32 || c.toNat = 9 || c.toNat = 10 || c.toNat = 11 ||
  c.toNat = 12 || c.toNat = 13 || c.toNat = 160 || c.toNat = 65279

/-- ASCII decimal digit test. -/
def isDigitChar (c : Char) : Bool :=
  48 ≤ c.toNat && c.toNat ≤ 57

/-- Value of a list of decimal digit characters, most significant first. -/
def digitsVal (ds : List Char) : Nat :=
  ds.foldl (fun n c => 10 * n + (c.toNat - 48)) 0

/-- Exponent part of a JS `StrDecimalLiteral`: an optional `e`/`E` followed by
an optional sign and at least one digit.  A malformed exponent (no digit after
the marker) is not consumed, matching `parseFloat`'s longest-valid-prefix
rule (`parseFloat("3e") = 3`). -/
def parseExp (cs : List Char) : Int :=
  match cs with
  | c :: rest =>
    if c = 'e' || c = 'E' then
      match rest with
      | s :: rest2 =>
        if s = '+' || s = '-' then
          let ds := rest2.takeWhile isDigitChar
          if ds.isEmpty then 0
          else if s = '-' then -(digitsVal ds : Int) else (digitsVal ds : Int)
        else
          let ds := rest.takeWhile isDigitChar
          if ds.isEmpty then 0 else (digitsVal ds : Int)
      | [] => 0
    else 0
  | [] => 0

/-- Unsigned decimal part of a JS `StrDecimalLiteral`: `digits`, `digits.`,
`digits.digits` or `.digits`, each with an optional exponent part.  Returns
the mantissa/exponent pair of the value, or `none` when no digit is found
(`parseFloat(".")` is `NaN`). -/
def parseDec (cs : List Char) : Option (Int × Nat) :=
  let intD := cs.takeWhile isDigitChar
  let r1 := cs.dropWhile isDigitChar
  let fracD :=
    match r1 with
    | c :: rest => if c = '.' then rest.takeWhile isDigitChar else []
    | [] => []
  let r2 :=
    match r1 with
    | c :: rest => if c = '.' then rest.dropWhile isDigitChar else r1
    | [] => []
  if intD.isEmpty && fracD.isEmpty then none
  else
    let e := parseExp r2
    let m : Int := (digitsVal (intD ++ fracD) : Int)
    if 0 ≤ e then some (m * 10 ^ e.toNat, fracD.length)
    else some (m, fracD.length + (-e).toNat)

/-- Signed part of `parseFloat`: optional `+`/`-`, then the `Infinity`
literal or a decimal literal. -/
def parseSigned (cs : List Char) : JsNumber :=
  match cs with
  | c :: rest =>
    if c = '-' then
      if "Infinity".data.isPrefixOf rest then .inf true
      else
        match parseDec rest with
        | some (n, k) => mkNum (-n) k
        | none => .nan
    else if c = '+' then
      if "Infinity".data.isPrefixOf rest then .inf false
      else
        match parseDec rest with
        | some (n, k) => mkNum n k
        | none => .nan
    else
      if "Infinity".data.isPrefixOf cs then .inf false
      else
        match parseDec cs with
        | some (n, k) => mkNum n k
        | none => .nan
  | [] => .nan

/-- JavaScript `parseFloat`: skip leading whitespace, then read the longest
prefix that is a valid `StrDecimalLiteral`; `NaN` when there is none.
Trailing garbage is ignored (`parseFloat("36.6abc") = 36.6`). -/
def parseFloatJs (s : String) : JsNumber :=
  parseSigned (s.data.dropWhile isJsSpace)

/-- Left-pad a digit list with `'0'` so that it has at least `k + 1`
characters (so that a decimal point can be placed `k` digits from the end,
`0.5` rather than `.5`). -/
def padLeftZeros (l : List Char) (k : Nat) : List Char :=
  List.replicate (k + 1 - l.length) '0' ++ l

/-- Decimal rendering of a nonnegative mantissa with `k` fractional digits,
as JavaScript `ToString` renders such numbers in the plain decimal range:
no decimal point for integers, no trailing fractional zeros (the mantissa is
normalized). -/
def decimalOfParts (n : Nat) (k : Nat) : String :=
  if k = 0 then toString n
  else
    let ds := padLeftZeros (toString n).data k
    String.mk (ds.take (ds.length - k)) ++ "." ++ String.mk (ds.drop (ds.length - k))

/-- Model of JavaScript number stringification (template literals) for the
values this program displays. -/
def numToString : JsNumber → String
  | .nan => "NaN"
  | .inf true => "-Infinity"
  | .inf false => "Infinity"
  | .num n k => if n < 0 then "-" ++ decimalOfParts (-n).toNat k else decimalOfParts n.toNat k

/-! ## FHIR data model (the fields the component reads) -/

/-- One `coding` element of a CodeableConcept. -/
structure Coding where
  system : Option String
  code : Option String
  display : Option String
deriving DecidableEq

/-- FHIR CodeableConcept, as read by the viewer. -/
structure CodeableConcept where
  coding : Option (List Coding)
  text : Option String
deriving DecidableEq

/-- FHIR Quantity; `value` is a JS number and may be absent. -/
structure Quantity where
  value : Option JsNumber
  unit : Option String
  system : Option String
  code : Option String
deriving DecidableEq

/-- One component of a multi-component observation. -/
structure ObsComponent where
  code : Option CodeableConcept
  valueQuantity : Option Quantity
deriving DecidableEq

/-- FHIR Observation, restricted to the fields this component reads or
writes.  `effectiveDateTime` holds the parsed epoch instant of the ISO
string, `none` when the field is missing or unparseable (in which case
JavaScript's `new Date(s).getTime()` yields `NaN`). -/
structure Observation where
  id : Option String
  status : Option String
  category : Option (List CodeableConcept)
  code : Option CodeableConcept
  subject : Option String
  effectiveDateTime : Option Int
  valueQuantity : Option Quantity
  valueString : Option String
  component : Option (List ObsComponent)
deriving DecidableEq

/-- One `entry` of a FHIR Bundle. -/
structure BundleEntry where
  resource : Option Observation
deriving DecidableEq

/-- FHIR Bundle, with `link` collapsed to the url of the `relation = "next"`
link the component extracts from it (`bundle.link?.find(l => l.relation ===
'next')?.url || null`). -/
structure Bundle where
  entry : Option (List BundleEntry)
  nextLink : Option String
deriving DecidableEq

/-! ## Launch controller (the app component's script) -/

/-- The token endpoint's response payload, as the fields the app reads. -/
structure TokenResponse where
  access_token : String
  patient : String
  scope : String
  need_patient_banner : Bool
  id_token : String
  token_type : String
  expires_in : Int
deriving DecidableEq

/-- The persisted `localStorage` keys the app uses.  The stored token JSON is
modelled in parsed form. -/
structure Store where
  token : Option TokenResponse
  iss : Option String
  tokenEndpoint : Option String
  currentLaunch : Option String
deriving DecidableEq

/-- The issuer's SMART discovery document, as the two fields the app reads. -/
structure SmartConfig where
  authorization_endpoint : String
  token_endpoint : String
deriving DecidableEq

/-- The app's fixed OAuth client id. -/
def client_id : String := "b8ee6437-99b8-471b-8b98-c89ca1451150"

/-- The app's fixed redirect URI. -/
def redirectUrl : String := "http://localhost:5173"

/-- The fixed scope string requested at authorization. -/
def scopeString : String :=
  "openid fhirUser launch user/Observation.read user/Observation.write user/Patient.read"

/-- `constructAuthUrl`: the authorization URL with the fixed query
parameters, in the order the source sets them (percent-encoding of the
`URL.searchParams` API is elided; no claim depends on it). -/
def constructAuthUrl (authorizationEndpoint launch iss : String) : String :=
  authorizationEndpoint ++ "?client_id=" ++ client_id ++
    "&redirect_uri=" ++ redirectUrl ++ "&scope=" ++ scopeString ++
    "&response_type=code" ++ "&aud=" ++ iss ++ "&launch=" ++ launch

/-- `clearAuthData`: removes the four persisted keys and resets the
in-memory token. -/
def clearAuthData (_store : Store) (_tok : Option TokenResponse) :
    Store × Option TokenResponse :=
  ({ token := none, iss := none, tokenEndpoint := none, currentLaunch := none }, none)

/-- The new-launch block at the top of `onMount`: when both `iss` and
`launch` URL parameters are present, compare the stored launch key with
`iss ++ ":" ++ launch`, clear everything on a mismatch, and store the
current key unconditionally. -/
def applyLaunchTakeover (issParam launchParam : Option String)
    (store : Store) (tok : Option TokenResponse) : Store × Option TokenResponse :=
  match issParam, launchParam with
  | some i, some l =>
    let key := i ++ ":" ++ l
    let cleared :=
      match store.currentLaunch with
      | some stored => if stored ≠ key then clearAuthData store tok else (store, tok)
      | none => (store, tok)
    ({ cleared.1 with currentLaunch := some key }, cleared.2)
  | _, _ => (store, tok)

/-- How a page load of the app component terminates. -/
inductive MountOutcome where
  | restored : MountOutcome
  | exchanged : MountOutcome
  | missingTokenEndpoint : MountOutcome
  | exchangeFailed : MountOutcome
  | missingParams : MountOutcome
  | discoveryFailed : MountOutcome
  | redirected : String → MountOutcome
deriving DecidableEq

/-- Result of one `onMount` run of the app component: the persisted store,
the in-memory token, the `baseUrl` variable and the way the run ended. -/
structure MountResult where
  store : Store
  token : Option TokenResponse
  baseUrl : Option String
  outcome : MountOutcome
deriving DecidableEq

/-- `onMount` after the takeover block: restore a persisted token, else
exchange an authorization `code` (via the persisted token endpoint), else
run discovery and redirect to the authorization URL.  `discovery` and
`exchange` are oracles for the two network calls (`none` models a thrown
network error). -/
def mountAfterTakeover (issParam launchParam codeParam : Option String)
    (store : Store) (discovery : String → Option SmartConfig)
    (exchange : String → String → Option TokenResponse) : MountResult :=
  let baseUrl := store.iss
  match store.token with
  | some t => { store := store, token := some t, baseUrl := baseUrl, outcome := .restored }
  | none =>
    match codeParam with
    | some code =>
      match store.tokenEndpoint with
      | none =>
        { store := store, token := none, baseUrl := baseUrl, outcome := .missingTokenEndpoint }
      | some te =>
        match exchange te code with
        | none =>
          { store := store, token := none, baseUrl := baseUrl, outcome := .exchangeFailed }
        | some t =>
          { store := { store with token := some t }, token := some t, baseUrl := baseUrl,
            outcome := .exchanged }
    | none =>
      match issParam, launchParam with
      | some i, some l =>
        let store1 : Store := { store with iss := some i }
        match discovery i with
        | none =>
          { store := store1, token := none, baseUrl := baseUrl, outcome := .discoveryFailed }
        | some cfg =>
          { store := { store1 with tokenEndpoint := some cfg.token_endpoint }, token := none,
            baseUrl := baseUrl,
            outcome := .redirected (constructAuthUrl cfg.authorization_endpoint l i) }
      | _, _ =>
        { store := store, token := none, baseUrl := baseUrl, outcome := .missingParams }

/-- One full `onMount` run: the takeover block first (the in-memory token is
still `undefined` at that point), then the restore / exchange / authorize
cascade on the resulting store. -/
def mountStep (issParam launchParam codeParam : Option String) (store : Store)
    (discovery : String → Option SmartConfig)
    (exchange : String → String → Option TokenResponse) : MountResult :=
  mountAfterTakeover issParam launchParam codeParam
    (applyLaunchTakeover issParam launchParam store none).1 discovery exchange

/-! ## Observation feed (the viewer component's script) -/

/-- `getVitalsEntries`: `bundle.entry || []`. -/
def getVitalsEntries (b : Bundle) : List BundleEntry :=
  b.entry.getD []

/-- The sort key used by every comparator in the component:
`new Date(entry.resource?.effectiveDateTime || "").getTime()`, i.e. the
parsed epoch instant, `none` for `NaN` (missing resource, missing date or
unparseable date). -/
def entryDate (e : BundleEntry) : Option Int :=
  e.resource.bind Observation.effectiveDateTime

/-- The comparator `(a, b) => dateB - dateA`.  When either date is `NaN` the
subtraction yields `NaN`, which `SortCompare` coerces to `+0`, so any pair
involving a dateless entry compares as a tie. -/
def cmpEntries (a b : BundleEntry) : Int :=
  match entryDate a, entryDate b with
  | some x, some y => y - x
  | _, _ => 0

/-- Insert `x` into `l`, placing it before the first element that compares
strictly greater (`cmp x y < 0`) and after all ties. -/
def insertOrd {α : Type} (cmp : α → α → Int) (x : α) : List α → List α
  | [] => [x]
  | y :: ys => if cmp x y < 0 then x :: y :: ys else y :: insertOrd cmp x ys

/-- Model of `Array.prototype.sort(comparator)` as a stable insertion sort
(elements taken left to right, ties keep their original order).  ECMAScript
requires the sort to be stable, which determines the result whenever the
comparator is consistent. -/
def sortJs {α : Type} (cmp : α → α → Int) (l : List α) : List α :=
  l.foldl (fun acc x => insertOrd cmp x acc) []

/-- Number of entries shown per client-side page. -/
def itemsPerPage : Nat := 20

/-- The freshness window of the in-memory bundle cache, in milliseconds. -/
def CACHE_DURATION : Int := 30000

/-- The delay before the post-create background reconciliation, in
milliseconds (`setTimeout(..., 1000)`). -/
def RECONCILE_DELAY : Nat := 1000

/-- The mutable state of the viewer component. -/
structure FeedState where
  vitalObservations : Option Bundle
  allObservations : List BundleEntry
  displayedObservations : List BundleEntry
  currentPage : Nat
  nextUrl : Option String
  hasMoreOnServer : Bool
  isLoadingMore : Bool
  lastFetchTime : Int
  loading : Bool
  errorMsg : Option String
  creating : Bool
  createError : Option String
  createSuccess : Bool
  showCreateForm : Bool
  temperatureValue : String
deriving DecidableEq

/-- The state of the component when its script first runs. -/
def initialFeedState : FeedState :=
  { vitalObservations := none, allObservations := [], displayedObservations := [],
    currentPage := 0, nextUrl := none, hasMoreOnServer := true, isLoadingMore := false,
    lastFetchTime := 0, loading := true, errorMsg := none, creating := false,
    createError := none, createSuccess := false, showCreateForm := false,
    temperatureValue := "" }

/-- The number of entries the window exposes: `(currentPage + 1) * itemsPerPage`. -/
def windowSize (st : FeedState) : Nat :=
  (st.currentPage + 1) * itemsPerPage

/-- `updateDisplayedObservations`: when `allObservations` is empty and a
bundle is cached, initialize `allObservations` with the bundle's entries
sorted by the date comparator; then expose the first
`(currentPage + 1) * itemsPerPage` entries. -/
def updateDisplayedObservations (st : FeedState) : FeedState :=
  let st1 :=
    if st.allObservations.isEmpty then
      match st.vitalObservations with
      | some b => { st with allObservations := sortJs cmpEntries (getVitalsEntries b) }
      | none => st
    else st
  { st1 with
    displayedObservations := st1.allObservations.take ((st1.currentPage + 1) * itemsPerPage) }

/-- `getVitals`: serve the cached bundle when it is fresh and no refresh is
forced, otherwise perform the network request (`response` is the oracle for
it, `none` modelling a thrown transport error) and record the fetch time and
the bundle's `next` link.  Returns the updated state, the bundle produced
(`none` when the call threw) and whether a network request was made. -/
def getVitals (st : FeedState) (now : Int) (forceRefresh : Bool)
    (response : Option Bundle) : FeedState × Option Bundle × Bool :=
  if ¬forceRefresh ∧ st.vitalObservations.isSome ∧ now - st.lastFetchTime < CACHE_DURATION then
    (st, st.vitalObservations, false)
  else
    match response with
    | none => (st, none, true)
    | some b =>
      let st' : FeedState :=
        { st with lastFetchTime := now, nextUrl := b.nextLink,
                  hasMoreOnServer := b.nextLink.isSome }
      (st', some b, true)

/-- The viewer's `onMount`: initial `getVitals`, then either store the bundle
and (via the reactive statement) recompute the display window, or record the
error message. -/
def mountFeed (now : Int) (response : Option Bundle) : FeedState :=
  let r := getVitals initialFeedState now false response
  match r.2.1 with
  | some b =>
    updateDisplayedObservations { r.1 with vitalObservations := some b, loading := false }
  | none =>
    { r.1 with errorMsg := some "fetch failed", loading := false }

/-- `loadMore`: when the next window could not be filled locally and the
server has more data, follow the continuation link (`fetchMoreFromServer`,
with `response` the oracle for the `axios.get` of `nextUrl`; `none` models a
caught network error, which makes `fetchMoreFromServer` return `null`), sort
the new entries, merge and re-sort the full collection; then advance the
window by one page and recompute the display.  `isLoadingMore` is set for
the duration of the fetch and reset in its `finally`, so its net effect
within one invocation is nil. -/
def loadMore (st : FeedState) (response : Option Bundle) : FeedState :=
  let currentlyNeeded := (st.currentPage + 2) * itemsPerPage
  let st1 :=
    if st.allObservations.length < currentlyNeeded ∧ st.hasMoreOnServer ∧ ¬st.isLoadingMore then
      match st.nextUrl with
      | none => st
      | some _ =>
        match response with
        | none => st
        | some b =>
          let st' := { st with nextUrl := b.nextLink, hasMoreOnServer := b.nextLink.isSome }
          let sortedNewEntries := sortJs cmpEntries (getVitalsEntries b)
          { st' with
            allObservations := sortJs cmpEntries (st'.allObservations ++ sortedNewEntries) }
    else st
  updateDisplayedObservations { st1 with currentPage := st1.currentPage + 1 }

/-- `hasMore`: more entries are locally loaded than displayed, or the server
has more pages. -/
def hasMore (st : FeedState) : Bool :=
  st.allObservations.length > (st.currentPage + 1) * itemsPerPage || st.hasMoreOnServer

/-- `toggleCreateForm`. -/
def toggleCreateForm (st : FeedState) : FeedState :=
  { st with showCreateForm := ¬st.showCreateForm, createError := none, createSuccess := false }

/-! ## Value formatting (`bpDisplay`) -/

/-- Does a component's `code.coding` contain a coding with the given code
(`c.code?.coding?.some(coding => coding.code === target)`)? -/
def hasCoding (c : ObsComponent) (target : String) : Bool :=
  match c.code with
  | none => false
  | some cc =>
    match cc.coding with
    | none => false
    | some l => l.any (fun cd => cd.code = some target)

/-- JS template interpolation of a possibly absent number
(`${q.value}` renders `undefined` when the field is missing). -/
def jsStr (v : Option JsNumber) : String :=
  match v with
  | none => "undefined"
  | some n => numToString n

/-- JS `a || b` on an optional string: the default is used when the string
is absent or empty (falsy). -/
def truthyOr (u : Option String) (d : String) : String :=
  match u with
  | some s => if s = "" then d else s
  | none => d

/-- The multi-component branch of `bpDisplay`: when the observation has a
nonempty component list, look up the first component whose coding carries
`8480-6` and the first carrying `8462-4`; when both are found and both carry
a `valueQuantity`, render `systolic/diastolic unit` with the systolic unit
defaulting to `"mmHg"`.  `none` when the branch does not produce a string. -/
def bpComponentDisplay (o : Observation) : Option String :=
  match o.component with
  | some comps =>
    if comps.length > 0 then
      match comps.find? (fun c => hasCoding c "8480-6"),
            comps.find? (fun c => hasCoding c "8462-4") with
      | some systolic, some diastolic =>
        match systolic.valueQuantity, diastolic.valueQuantity with
        | some sq, some dq =>
          some (jsStr sq.value ++ "/" ++ jsStr dq.value ++ " " ++ truthyOr sq.unit "mmHg")
        | _, _ => none
      | _, _ => none
    else none
  | none => none

/-- `bpDisplay`: blood-pressure rendering when the component branch fires,
else `value unit` for a single quantity, else a truthy `valueString`, else
`"Not available"`. -/
def bpDisplay (o : Observation) : String :=
  match bpComponentDisplay o with
  | some s => s
  | none =>
    match o.valueQuantity with
    | some q => jsStr q.value ++ " " ++ truthyOr q.unit ""
    | none =>
      match o.valueString with
      | some s => if s = "" then "Not available" else s
      | none => "Not available"

/-! ## Creating a temperature observation -/

/-- Outcome of the `axios.post` to `{baseUrl}/Observation`: success with
`response.data?.id` (`none` for an empty body, `some none` for a body without
an id), or a thrown error carried as the message the catch block surfaces. -/
inductive PostOutcome where
  | ok : Option (Option String) → PostOutcome
  | err : String → PostOutcome
deriving DecidableEq

/-- Result of one `createTemperatureObservation` call: the component state
afterwards, the resource POSTed (`none` when validation failed and no network
call was made) and the delay of the scheduled background reconciliation
(`none` when none was scheduled). -/
structure CreateResult where
  state : FeedState
  posted : Option Observation
  reconcileDelayMs : Option Nat
deriving DecidableEq

/-- The Observation resource the component constructs for a temperature
reading (`now` is the parsed instant of `new Date().toISOString()`). -/
def temperatureObservation (patientId : String) (now : Int) (q : JsNumber) : Observation :=
  let categoryCoding : Coding :=
    { system := some "http://terminology.hl7.org/CodeSystem/observation-category",
      code := some "vital-signs", display := some "Vital Signs" }
  let categoryConcept : CodeableConcept :=
    { coding := some [categoryCoding], text := some "Vital Signs" }
  let codeCoding : Coding :=
    { system := some "http://loinc.org", code := some "8331-1", display := none }
  let codeConcept : CodeableConcept :=
    { coding := some [codeCoding], text := some "Temperature Oral" }
  let quantity : Quantity :=
    { value := some q, unit := some "degC",
      system := some "http://unitsofmeasure.org", code := some "Cel" }
  { id := none
    status := some "final"
    category := some [categoryConcept]
    code := some codeConcept
    subject := some ("Patient/" ++ patientId)
    effectiveDateTime := some now
    valueQuantity := some quantity
    valueString := none
    component := none }

/-- The id of the optimistic entry: `response.data?.id || "temp-" + Date.now()`
(a falsy echoed id, absent body or absent id all fall back to the temporary
client id). -/
def optimisticId (bodyId : Option (Option String)) (now : Int) : String :=
  match bodyId with
  | some (some i) => if i = "" then "temp-" ++ toString now else i
  | _ => "temp-" ++ toString now

/-- `createTemperatureObservation`: reject an empty or unparseable input with
a local validation error and no network call; otherwise construct the
resource, POST it, and on success prepend the optimistic entry, refresh the
displayed window, mark success, close the form and schedule the delayed
reconciliation; on a POST failure record the error.  `creating` is reset in
the `finally`. -/
def createTemperatureObservation (st : FeedState) (patientId : String) (now : Int)
    (post : PostOutcome) : CreateResult :=
  if st.temperatureValue = "" ∨ parseFloatJs st.temperatureValue = JsNumber.nan then
    { state := { st with createError := some "Please enter a valid temperature value" },
      posted := none, reconcileDelayMs := none }
  else
    let st1 : FeedState := { st with creating := true, createError := none,
                                     createSuccess := false }
    let obs := temperatureObservation patientId now (parseFloatJs st.temperatureValue)
    match post with
    | .err msg =>
      { state := { st1 with createError := some msg, creating := false },
        posted := some obs, reconcileDelayMs := none }
    | .ok bodyId =>
      let newEntry : BundleEntry := { resource := some { obs with
        id := some (optimisticId bodyId now) } }
      let st2 : FeedState := { st1 with allObservations := newEntry :: st1.allObservations }
      let st3 : FeedState :=
        match st2.vitalObservations with
        | some b =>
          { st2 with vitalObservations := some { b with
              entry := some (newEntry :: b.entry.getD []) } }
        | none => st2
      let st4 := updateDisplayedObservations st3
      { state := { st4 with createSuccess := true, showCreateForm := false,
                            temperatureValue := "", creating := false },
        posted := some obs, reconcileDelayMs := some RECONCILE_DELAY }

/-- The `setTimeout` callback after a successful create: `getVitals(true)`
(cache bypassed), then replace the cached bundle, drop the local collection,
reset the window to the first page and recompute the display.  A rejected
fetch skips the `.then` continuation.  The Bool records whether a network
request was made. -/
def reconcileStep (st : FeedState) (now : Int) (response : Option Bundle) :
    FeedState × Bool :=
  let r := getVitals st now true response
  match r.2.1 with
  | some b =>
    (updateDisplayedObservations
      { r.1 with vitalObservations := some b, allObservations := [], currentPage := 0 },
     r.2.2)
  | none => (r.1, r.2.2)

/-- The states the feed can reach: the initial mount followed by any
sequence of user- or timer-initiated operations, each with arbitrary network
responses. -/
inductive Reachable : FeedState → Prop where
  | mount : ∀ now response, Reachable (mountFeed now response)
  | more : ∀ st response, Reachable st → Reachable (loadMore st response)
  | created : ∀ st patientId now post, Reachable st →
      Reachable (createTemperatureObservation st patientId now post).state
  | reconciled : ∀ st now response, Reachable st →
      Reachable (reconcileStep st now response).1
  | toggled : ∀ st, Reachable st → Reachable (toggleCreateForm st)
  | typed : ∀ st s, Reachable st → Reachable { st with temperatureValue := s }

/-! ## Helper lemmas about the sort model -/

/-- The effective-time key with `NaN` collapsed to an arbitrary value; only
used under a hypothesis that every entry is dated. -/
def entryKey (e : BundleEntry) : Int :=
  (entryDate e).getD 0

theorem insertOrd_perm {α : Type} (cmp : α → α → Int) (x : α) :
    ∀ l : List α, (insertOrd cmp x l).Perm (x :: l) := by
  intro l
  induction l with
  | nil => exact List.Perm.refl _
  | cons y ys ih =>
    by_cases h : cmp x y < 0
    · rw [insertOrd, if_pos h]
    · rw [insertOrd, if_neg h]
      exact (ih.cons y).trans (List.Perm.swap x y ys)

theorem mem_insertOrd {α : Type} (cmp : α → α → Int) (x a : α) (l : List α)
    (h : a ∈ insertOrd cmp x l) : a = x ∨ a ∈ l := by
  have := (insertOrd_perm cmp x l).mem_iff.mp h
  simpa using this

theorem foldl_insertOrd_perm {α : Type} (cmp : α → α → Int) :
    ∀ (l acc : List α),
      (l.foldl (fun acc x => insertOrd cmp x acc) acc).Perm (acc ++ l) := by
  intro l
  induction l with
  | nil => intro acc; simp
  | cons x xs ih =>
    intro acc
    have h1 := ih (insertOrd cmp x acc)
    have h2 : (insertOrd cmp x acc ++ xs).Perm (acc ++ x :: xs) := by
      have h3 := (insertOrd_perm cmp x acc).append_right xs
      exact h3.trans List.perm_middle.symm
    simpa using h1.trans h2

theorem sortJs_perm {α : Type} (cmp : α → α → Int) (l : List α) :
    (sortJs cmp l).Perm l := by
  have := foldl_insertOrd_perm cmp l []
  simpa [sortJs] using this

/-- On dated entries the comparator decides strictly by key. -/
theorem cmpEntries_lt_iff (a b : BundleEntry)
    (ha : (entryDate a).isSome) (hb : (entryDate b).isSome) :
    (cmpEntries a b < 0 ↔ entryKey b < entryKey a) := by
  rcases Option.isSome_iff_exists.mp ha with ⟨x, hx⟩
  rcases Option.isSome_iff_exists.mp hb with ⟨y, hy⟩
  simp only [cmpEntries, entryKey, hx, hy, Option.getD_some]
  omega

/-- Any comparison involving a dateless entry is a tie (the comparator
returns `NaN`, coerced to `+0` by `SortCompare`). -/
theorem cmpEntries_nan (a b : BundleEntry)
    (h : entryDate a = none ∨ entryDate b = none) : cmpEntries a b = 0 := by
  rcases h with h | h
  · simp [cmpEntries, h]
  · rw [cmpEntries, h]
    cases entryDate a <;> rfl

theorem insertOrd_pairwise_dated (x : BundleEntry)
    (hx : (entryDate x).isSome) :
    ∀ (l : List BundleEntry), (∀ e ∈ l, (entryDate e).isSome) →
      l.Pairwise (fun a b => entryKey b ≤ entryKey a) →
      (insertOrd cmpEntries x l).Pairwise (fun a b => entryKey b ≤ entryKey a) := by
  intro l
  induction l with
  | nil => intro _ _; simp [insertOrd]
  | cons y ys ih =>
    intro hl hs
    have hy : (entryDate y).isSome := hl y (by simp)
    have hys : ∀ e ∈ ys, (entryDate e).isSome := fun e he => hl e (by simp [he])
    rcases List.pairwise_cons.mp hs with ⟨hyall, hsys⟩
    by_cases h : cmpEntries x y < 0
    · have hkey : entryKey y < entryKey x := (cmpEntries_lt_iff x y hx hy).mp h
      rw [insertOrd, if_pos h]
      refine List.pairwise_cons.mpr ⟨?_, hs⟩
      intro z hz
      rcases List.mem_cons.mp hz with rfl | hz'
      · omega
      · have := hyall z hz'
        omega
    · have hkey : entryKey x ≤ entryKey y := by
        have h2 := (cmpEntries_lt_iff x y hx hy).not.mp h
        omega
      rw [insertOrd, if_neg h]
      refine List.pairwise_cons.mpr ⟨?_, ih hys hsys⟩
      intro z hz
      rcases mem_insertOrd cmpEntries x z ys hz with rfl | hz'
      · exact hkey
      · exact hyall z hz'

theorem sortJs_pairwise_dated (l : List BundleEntry)
    (hl : ∀ e ∈ l, (entryDate e).isSome) :
    (sortJs cmpEntries l).Pairwise (fun a b => entryKey b ≤ entryKey a) := by
  have key : ∀ (l2 acc : List BundleEntry), (∀ e ∈ l2, (entryDate e).isSome) →
      (∀ e ∈ acc, (entryDate e).isSome) →
      acc.Pairwise (fun a b => entryKey b ≤ entryKey a) →
      (l2.foldl (fun acc x => insertOrd cmpEntries x acc) acc).Pairwise
        (fun a b => entryKey b ≤ entryKey a) := by
    intro l2
    induction l2 with
    | nil => intro acc _ _ hs; simpa
    | cons x xs ih =>
      intro acc hlx hacc hs
      have hx : (entryDate x).isSome := hlx x (by simp)
      have hxs : ∀ e ∈ xs, (entryDate e).isSome := fun e he => hlx e (by simp [he])
      have hacc' : ∀ e ∈ insertOrd cmpEntries x acc, (entryDate e).isSome := by
        intro e he
        rcases mem_insertOrd cmpEntries x e acc he with rfl | he'
        · exact hx
        · exact hacc e he'
      exact ih (insertOrd cmpEntries x acc) hxs hacc'
        (insertOrd_pairwise_dated x hx acc hacc hs)
  exact key l [] hl (by simp) (by simp)

/-! ## Shared concrete fixtures -/

/-- A token payload used in concrete instantiations. -/
def sampleToken : TokenResponse :=
  { access_token := "tok", patient := "pat-1", scope := "openid",
    need_patient_banner := true, id_token := "idt", token_type := "Bearer",
    expires_in := 3600 }

/-- An observation with every optional field absent. -/
def emptyObservation : Observation :=
  { id := none, status := none, category := none, code := none, subject := none,
    effectiveDateTime := none, valueQuantity := none, valueString := none,
    component := none }

/-- A quantity of `n` mmHg. -/
def mmHgQuantity (n : Int) : Quantity :=
  { value := some (.num n 0), unit := some "mmHg", system := none, code := none }

/-- A component coded `c` with the given quantity. -/
def componentWith (c : String) (q : Option Quantity) : ObsComponent :=
  let cd : Coding := { system := none, code := some c, display := none }
  let cc : CodeableConcept := { coding := some [cd], text := none }
  { code := some cc, valueQuantity := q }

/-- The claim's blood-pressure example: components `8480-6` = 120 and
`8462-4` = 80, unit mmHg. -/
def obsBPExample : Observation :=
  let sys := componentWith "8480-6" (some (mmHgQuantity 120))
  let dia := componentWith "8462-4" (some (mmHgQuantity 80))
  { emptyObservation with component := some [sys, dia] }

/-- The claim's temperature example: `valueQuantity = {value: 36.6, unit: "degC"}`. -/
def obsTempExample : Observation :=
  let q : Quantity := { value := some (.num 366 1), unit := some "degC",
                        system := none, code := none }
  { emptyObservation with valueQuantity := some q }

/-! ## C1 — launch takeover -/

/-- C1: on a load carrying both `iss` and `launch`, a stored launch key that
differs from `iss ++ ":" ++ launch` causes the whole prior session (the four
persisted keys and the in-memory token) to be cleared and the new key to be
stored; an equal stored key clears nothing; a missing stored key only stores
the new key; `clearAuthData` empties everything; and the takeover block runs
before every other step of `onMount`. -/
theorem takeover_semantics (i l : String) (store : Store) (code : Option String)
    (disc : String → Option SmartConfig)
    (exch : String → String → Option TokenResponse) :
    (∀ stored, store.currentLaunch = some stored → stored ≠ i ++ ":" ++ l →
      applyLaunchTakeover (some i) (some l) store none =
        ({ token := none, iss := none, tokenEndpoint := none,
           currentLaunch := some (i ++ ":" ++ l) }, none))
    ∧ (store.currentLaunch = some (i ++ ":" ++ l) →
      applyLaunchTakeover (some i) (some l) store none = (store, none))
    ∧ (store.currentLaunch = none →
      applyLaunchTakeover (some i) (some l) store none =
        ({ store with currentLaunch := some (i ++ ":" ++ l) }, none))
    ∧ (∀ (s : Store) (t : Option TokenResponse), clearAuthData s t =
        ({ token := none, iss := none, tokenEndpoint := none, currentLaunch := none }, none))
    ∧ mountStep (some i) (some l) code store disc exch =
        mountAfterTakeover (some i) (some l) code
          (applyLaunchTakeover (some i) (some l) store none).1 disc exch := by
  refine ⟨?_, ?_, ?_, fun s t => rfl, rfl⟩
  · intro stored hst hne
    simp [applyLaunchTakeover, hst, hne, clearAuthData]
  · intro h
    obtain ⟨t, is, te, cl⟩ := store
    simp only [Store.mk.injEq] at h ⊢
    simp [applyLaunchTakeover, h]
  · intro h
    simp [applyLaunchTakeover, h]

theorem takeover_semantics_witness :
    applyLaunchTakeover (some "https://fhir.example") (some "L2")
        { token := some sampleToken, iss := some "https://fhir.example",
          tokenEndpoint := some "https://fhir.example/token",
          currentLaunch := some "https://fhir.example:L1" } none =
      ({ token := none, iss := none, tokenEndpoint := none,
         currentLaunch := some "https://fhir.example:L2" }, none) :=
  (takeover_semantics "https://fhir.example" "L2" _ none (fun _ => none)
    (fun _ _ => none)).1 "https://fhir.example:L1" rfl (by decide)

/-! ## C2 — session restoration -/

/-- When no token is persisted (after the takeover block) the run can end in
any way except `restored`. -/
theorem mount_no_token_not_restored (issParam launchParam codeParam : Option String)
    (store : Store) (disc : String → Option SmartConfig)
    (exch : String → String → Option TokenResponse) (h : store.token = none) :
    (mountAfterTakeover issParam launchParam codeParam store disc exch).outcome ≠
      MountOutcome.restored := by
  simp only [mountAfterTakeover, h]
  cases codeParam with
  | some c =>
    cases h2 : store.tokenEndpoint with
    | none => simp
    | some te =>
      cases h3 : exch te c with
      | none => simp [h3]
      | some t => simp [h3]
  | none =>
    cases issParam with
    | none => simp
    | some i =>
      cases launchParam with
      | none => simp
      | some l =>
        cases h4 : disc i with
        | none => simp [h4]
        | some cfg => simp [h4]

/-- C2 counterexample: a load whose URL carries an authorization `code` while
a token is persisted (and no `iss`/`launch` parameters are present) still
short-circuits to session restoration and reuses the persisted token as-is,
against the claim's "for every load where both a persisted token and a
`code` URL parameter are present, the controller does not short-circuit to
session restoration". -/
theorem restore_despite_code_counterexample :
    (mountStep none none (some "auth-code")
        { token := some sampleToken, iss := some "https://fhir.example",
          tokenEndpoint := some "https://fhir.example/token",
          currentLaunch := some "k" }
        (fun _ => none) (fun _ _ => none)).outcome = MountOutcome.restored
    ∧ (mountStep none none (some "auth-code")
        { token := some sampleToken, iss := some "https://fhir.example",
          tokenEndpoint := some "https://fhir.example/token",
          currentLaunch := some "k" }
        (fun _ => none) (fun _ _ => none)).token = some sampleToken := by
  constructor <;> rfl

/-- C2 (amended): a persisted session is reused as-is exactly when, after the
takeover step, a persisted access token exists — the `code` URL parameter is
not consulted; when a token is present the run returns it unchanged and
stores nothing new. -/
theorem restore_iff_persisted_token (issParam launchParam codeParam : Option String)
    (store : Store) (disc : String → Option SmartConfig)
    (exch : String → String → Option TokenResponse) :
    ((mountStep issParam launchParam codeParam store disc exch).outcome =
        MountOutcome.restored ↔
      (applyLaunchTakeover issParam launchParam store none).1.token ≠ none)
    ∧ (∀ t, (applyLaunchTakeover issParam launchParam store none).1.token = some t →
      mountStep issParam launchParam codeParam store disc exch =
        { store := (applyLaunchTakeover issParam launchParam store none).1,
          token := some t,
          baseUrl := (applyLaunchTakeover issParam launchParam store none).1.iss,
          outcome := MountOutcome.restored }) := by
  constructor
  · cases h : (applyLaunchTakeover issParam launchParam store none).1.token with
    | some t =>
      constructor
      · intro _
        simp [h]
      · intro _
        simp [mountStep, mountAfterTakeover, h]
    | none =>
      constructor
      · intro hout
        exact absurd hout (mount_no_token_not_restored issParam launchParam codeParam
          (applyLaunchTakeover issParam launchParam store none).1 disc exch h)
      · intro hne
        exact absurd rfl hne
  · intro t ht
    simp [mountStep, mountAfterTakeover, ht]

theorem restore_iff_persisted_token_witness :
    mountStep none none (some "auth-code")
        { token := some sampleToken, iss := none, tokenEndpoint := none,
          currentLaunch := none }
        (fun _ => none) (fun _ _ => none) =
      { store := { token := some sampleToken, iss := none, tokenEndpoint := none,
                   currentLaunch := none },
        token := some sampleToken, baseUrl := none,
        outcome := MountOutcome.restored } :=
  (restore_iff_persisted_token none none (some "auth-code")
    { token := some sampleToken, iss := none, tokenEndpoint := none,
      currentLaunch := none }
    (fun _ => none) (fun _ _ => none)).2 sampleToken rfl

/-! ## C3 — value formatting -/

/-- C3 counterexample.  Three divergences between the claim's literal reading
and the code: (1) the code looks at the *first* component carrying each
LOINC code, so an observation in which *a* component coded `8480-6` carries
a quantity (but the first such component does not) renders `"Not available"`
rather than `systolic/diastolic unit`; (2) a present-but-empty `valueString`
is falsy and renders `"Not available"`, not the raw string; (3) a
present-but-empty systolic unit still defaults to `"mmHg"`. -/
theorem bpDisplay_counterexample :
    (let cs1 := [componentWith "8480-6" none,
                 componentWith "8480-6" (some (mmHgQuantity 120)),
                 componentWith "8462-4" (some (mmHgQuantity 80))]
     let o1 : Observation := { emptyObservation with component := some cs1 }
     ((o1.component.getD []).any
        (fun c => hasCoding c "8480-6" && c.valueQuantity.isSome)) = true
     ∧ ((o1.component.getD []).any
        (fun c => hasCoding c "8462-4" && c.valueQuantity.isSome)) = true
     ∧ bpDisplay o1 = "Not available")
    ∧ (let o2 : Observation := { emptyObservation with valueString := some "" }
       o2.valueString = some "" ∧ bpDisplay o2 = "Not available")
    ∧ (let q0 : Quantity := { value := some (.num 120 0), unit := some "",
                              system := none, code := none }
       let cs3 := [componentWith "8480-6" (some q0),
                   componentWith "8462-4" (some (mmHgQuantity 80))]
       let o3 : Observation := { emptyObservation with component := some cs3 }
       (o3.component.getD []).head?.bind ObsComponent.valueQuantity =
          some q0
       ∧ bpDisplay o3 = "120/80 mmHg" ∧ "120/80 mmHg" ≠ "120/80 ") := by
  refine ⟨⟨?_, ?_, ?_⟩, ⟨rfl, rfl⟩, ⟨rfl, rfl, ?_⟩⟩ <;> decide

/-- C3 (amended): the displayed value string is computed as follows — if the
observation has a nonempty component list and the *first* component coded
`8480-6` and the *first* component coded `8462-4` both carry a
`valueQuantity`, the result is `systolic/diastolic unit` with the systolic
unit defaulting to `"mmHg"` when absent or empty; otherwise, a present
`valueQuantity` renders as `value unit` with the unit defaulting to the
empty string; otherwise a present nonempty `valueString` renders as that raw
string; otherwise `"Not available"`.  In particular the claim's three
concrete examples hold. -/
theorem bpDisplay_spec (o : Observation) :
    (∀ comps systolic diastolic sq dq, o.component = some comps →
      comps.find? (fun c => hasCoding c "8480-6") = some systolic →
      comps.find? (fun c => hasCoding c "8462-4") = some diastolic →
      systolic.valueQuantity = some sq → diastolic.valueQuantity = some dq →
      bpDisplay o = jsStr sq.value ++ "/" ++ jsStr dq.value ++ " " ++
        truthyOr sq.unit "mmHg")
    ∧ (∀ q, bpComponentDisplay o = none → o.valueQuantity = some q →
      bpDisplay o = jsStr q.value ++ " " ++ truthyOr q.unit "")
    ∧ (∀ s, bpComponentDisplay o = none → o.valueQuantity = none →
      o.valueString = some s → s ≠ "" → bpDisplay o = s)
    ∧ (bpComponentDisplay o = none → o.valueQuantity = none →
      (o.valueString = none ∨ o.valueString = some "") →
      bpDisplay o = "Not available")
    ∧ bpDisplay obsBPExample = "120/80 mmHg"
    ∧ bpDisplay obsTempExample = "36.6 degC"
    ∧ bpDisplay emptyObservation = "Not available" := by
  refine ⟨?_, ?_, ?_, ?_, by decide, by decide, by decide⟩
  · intro comps systolic diastolic sq dq hc hf1 hf2 hsq hdq
    have hne : comps.length > 0 := by
      cases comps with
      | nil => simp at hf1
      | cons a as => simp
    simp [bpDisplay, bpComponentDisplay, hc, hne, hf1, hf2, hsq, hdq]
  · intro q hnone hq
    simp [bpDisplay, hnone, hq]
  · intro s hnone hvq hvs hne
    simp [bpDisplay, hnone, hvq, hvs, hne]
  · intro hnone hvq hvs
    rcases hvs with h | h <;> simp [bpDisplay, hnone, hvq, h]

theorem bpDisplay_spec_witness :
    bpDisplay obsBPExample = "120/80 mmHg" ∧ bpDisplay obsTempExample = "36.6 degC" :=
  ⟨(bpDisplay_spec obsBPExample).1
      [componentWith "8480-6" (some (mmHgQuantity 120)),
       componentWith "8462-4" (some (mmHgQuantity 80))]
      (componentWith "8480-6" (some (mmHgQuantity 120)))
      (componentWith "8462-4" (some (mmHgQuantity 80)))
      (mmHgQuantity 120) (mmHgQuantity 80)
      rfl (by decide) (by decide) rfl rfl,
   (bpDisplay_spec obsTempExample).2.1
      { value := some (.num 366 1), unit := some "degC", system := none, code := none }
      rfl rfl⟩

/-! ## Helper lemmas about the display window -/

theorem updateDisplayed_of_ne_nil (st : FeedState) (h : st.allObservations ≠ []) :
    updateDisplayedObservations st =
      { st with displayedObservations :=
          st.allObservations.take ((st.currentPage + 1) * itemsPerPage) } := by
  have h2 : st.allObservations.isEmpty = false := by
    cases hcase : st.allObservations with
    | nil => exact absurd hcase h
    | cons a as => rfl
  simp [updateDisplayedObservations, h2]

theorem updateDisplayed_of_nil_some (st : FeedState) (b : Bundle)
    (h : st.allObservations = []) (hb : st.vitalObservations = some b) :
    updateDisplayedObservations st =
      { st with
        allObservations := sortJs cmpEntries (getVitalsEntries b),
        displayedObservations := (sortJs cmpEntries (getVitalsEntries b)).take
          ((st.currentPage + 1) * itemsPerPage) } := by
  simp [updateDisplayedObservations, h, hb]

theorem updateDisplayed_of_nil_none (st : FeedState)
    (h : st.allObservations = []) (hb : st.vitalObservations = none) :
    updateDisplayedObservations st = { st with displayedObservations := [] } := by
  simp [updateDisplayedObservations, h, hb]

/-! ## C4 — sort order after init and merge -/

/-- A bundle entry with the given parsed effective instant. -/
def datedEntry (t : Int) : BundleEntry :=
  { resource := some { emptyObservation with effectiveDateTime := some t } }

/-- A bundle entry with no resource, hence no effective date. -/
def datelessEntry : BundleEntry :=
  { resource := none }

/-- C4 counterexample: initializing the collection from a bundle whose first
entry has no date and whose second is dated leaves the dateless entry *first*
(every comparison against it returns `NaN`, coerced to a tie, and the sort is
stable), contradicting the claim that a dateless entry compares as the
earliest possible instant and hence sorts after every dated entry. -/
theorem sort_dateless_counterexample :
    (let b : Bundle := { entry := some [datelessEntry, datedEntry 100], nextLink := none }
     let st : FeedState := { initialFeedState with vitalObservations := some b }
     entryDate datelessEntry = none ∧ entryDate (datedEntry 100) = some 100 ∧
     (updateDisplayedObservations st).allObservations = [datelessEntry, datedEntry 100] ∧
     [datelessEntry, datedEntry 100] ≠ [datedEntry 100, datelessEntry]) := by
  refine ⟨rfl, rfl, ?_, ?_⟩ <;> decide

/-- C4 (amended): the comparator orders dated entries descending by
effective time but yields a tie (`NaN`, coerced to `+0`) for any pair in
which either entry lacks a parseable date, so dateless entries keep their
relative position instead of sorting last.  Consequently, after
initialization from the first bundle and after a `loadMore` merge, whenever
every entry involved carries a parseable date the collection is sorted
descending by effective time and is a permutation of the entries merged. -/
theorem sort_spec :
    (∀ a b : BundleEntry, entryDate a = none ∨ entryDate b = none → cmpEntries a b = 0)
    ∧ (∀ (st : FeedState) (bundle : Bundle), st.allObservations = [] →
        st.vitalObservations = some bundle →
        (∀ e ∈ getVitalsEntries bundle, (entryDate e).isSome) →
        ((updateDisplayedObservations st).allObservations.Pairwise
            (fun a b => entryKey b ≤ entryKey a)
         ∧ (updateDisplayedObservations st).allObservations.Perm
            (getVitalsEntries bundle)))
    ∧ (∀ (st : FeedState) (b : Bundle),
        st.allObservations.length < (st.currentPage + 2) * itemsPerPage →
        st.hasMoreOnServer = true → st.isLoadingMore = false → st.nextUrl.isSome →
        st.allObservations ++ getVitalsEntries b ≠ [] →
        (∀ e ∈ st.allObservations ++ getVitalsEntries b, (entryDate e).isSome) →
        ((loadMore st (some b)).allObservations.Pairwise
            (fun a b => entryKey b ≤ entryKey a)
         ∧ (loadMore st (some b)).allObservations.Perm
            (st.allObservations ++ getVitalsEntries b))) := by
  refine ⟨fun a b h => cmpEntries_nan a b h, ?_, ?_⟩
  · intro st bundle h1 h2 hdated
    have hall : (updateDisplayedObservations st).allObservations =
        sortJs cmpEntries (getVitalsEntries bundle) := by
      simp [updateDisplayedObservations, h1, h2]
    rw [hall]
    exact ⟨sortJs_pairwise_dated _ hdated, sortJs_perm _ _⟩
  · intro st b hlen hsrv hload hnext hne hdated
    obtain ⟨u, hu⟩ := Option.isSome_iff_exists.mp hnext
    have hpermNew : (sortJs cmpEntries (getVitalsEntries b)).Perm (getVitalsEntries b) :=
      sortJs_perm _ _
    have hpermPre : (st.allObservations ++ sortJs cmpEntries (getVitalsEntries b)).Perm
        (st.allObservations ++ getVitalsEntries b) :=
      hpermNew.append_left st.allObservations
    have hdatedPre : ∀ e ∈ st.allObservations ++ sortJs cmpEntries (getVitalsEntries b),
        (entryDate e).isSome := by
      intro e he
      exact hdated e (hpermPre.mem_iff.mp he)
    have hpermMerged :
        (sortJs cmpEntries (st.allObservations ++ sortJs cmpEntries (getVitalsEntries b))).Perm
          (st.allObservations ++ getVitalsEntries b) :=
      (sortJs_perm _ _).trans hpermPre
    have hMergedNe :
        sortJs cmpEntries (st.allObservations ++ sortJs cmpEntries (getVitalsEntries b)) ≠ [] := by
      intro h0
      exact hne (List.perm_nil.mp (h0 ▸ hpermMerged).symm)
    have hall : (loadMore st (some b)).allObservations =
        sortJs cmpEntries (st.allObservations ++ sortJs cmpEntries (getVitalsEntries b)) := by
      have hcond : st.allObservations.length < (st.currentPage + 2) * itemsPerPage ∧
          st.hasMoreOnServer = true ∧ ¬st.isLoadingMore = true :=
        ⟨hlen, hsrv, by simp [hload]⟩
      simp only [loadMore]
      rw [if_pos hcond]
      simp only [hu]
      rw [updateDisplayed_of_ne_nil _ (by simpa using hMergedNe)]
    rw [hall]
    exact ⟨sortJs_pairwise_dated _ hdatedPre, hpermMerged⟩

theorem sort_spec_witness :
    (let bundle : Bundle := { entry := some [datedEntry 50, datedEntry 100], nextLink := none }
     let st : FeedState := { initialFeedState with vitalObservations := some bundle }
     (updateDisplayedObservations st).allObservations.Pairwise
        (fun a b => entryKey b ≤ entryKey a)
     ∧ (updateDisplayedObservations st).allObservations.Perm (getVitalsEntries bundle)) :=
  sort_spec.2.1 _ _ rfl rfl (by decide)

/-! ## C5 — optimistic create -/

theorem head?_take_pos {α : Type} (a : α) (l : List α) (n : Nat) (h : 0 < n) :
    ((a :: l).take n).head? = some a := by
  cases n with
  | zero => omega
  | succ m => simp

/-- C5: after a successful create POST (body echoed or not, id echoed or
not), the locally synthesized entry — server id if echoed and truthy, else
the client temporary id — is prepended to `allObservations`, the display
window is recomputed at once, the new entry heads the displayed list, its
`code.text` is `"Temperature Oral"` and its value formats as `"<N> degC"`;
all without the reconciliation having run (the result is the create call's
own state). -/
theorem create_optimistic_prepend (st : FeedState) (patientId : String) (now : Int)
    (bodyId : Option (Option String))
    (hval : ¬(st.temperatureValue = "" ∨ parseFloatJs st.temperatureValue = JsNumber.nan)) :
    (let obs := temperatureObservation patientId now (parseFloatJs st.temperatureValue)
     let entry : BundleEntry :=
       { resource := some { obs with id := some (optimisticId bodyId now) } }
     let r := createTemperatureObservation st patientId now (.ok bodyId)
     r.state.allObservations = entry :: st.allObservations
     ∧ r.state.displayedObservations =
         (entry :: st.allObservations).take ((st.currentPage + 1) * itemsPerPage)
     ∧ r.state.displayedObservations.head? = some entry
     ∧ (∀ echoed, echoed ≠ "" → bodyId = some (some echoed) →
         optimisticId bodyId now = echoed)
     ∧ (bodyId = none ∨ bodyId = some none →
         optimisticId bodyId now = "temp-" ++ toString now)
     ∧ obs.code.bind CodeableConcept.text = some "Temperature Oral"
     ∧ bpDisplay { obs with id := some (optimisticId bodyId now) } =
         numToString (parseFloatJs st.temperatureValue) ++ " degC") := by
  have hpos : 0 < (st.currentPage + 1) * itemsPerPage := by
    have : 0 < itemsPerPage := by simp [itemsPerPage]
    positivity
  have hstate : (createTemperatureObservation st patientId now (.ok bodyId)).state.allObservations =
      ({ resource := some { temperatureObservation patientId now
          (parseFloatJs st.temperatureValue) with
          id := some (optimisticId bodyId now) } } : BundleEntry) :: st.allObservations ∧
      (createTemperatureObservation st patientId now (.ok bodyId)).state.displayedObservations =
      (({ resource := some { temperatureObservation patientId now
          (parseFloatJs st.temperatureValue) with
          id := some (optimisticId bodyId now) } } : BundleEntry) :: st.allObservations).take
        ((st.currentPage + 1) * itemsPerPage) := by
    cases hvo : st.vitalObservations with
    | none =>
      rw [createTemperatureObservation, if_neg hval]
      simp only [hvo]
      rw [updateDisplayed_of_ne_nil _ (by simp)]
      simp
    | some b =>
      rw [createTemperatureObservation, if_neg hval]
      simp only [hvo]
      rw [updateDisplayed_of_ne_nil _ (by simp)]
      simp
  refine ⟨hstate.1, hstate.2, ?_, ?_, ?_, rfl, ?_⟩
  · rw [hstate.2]
    exact head?_take_pos _ _ _ hpos
  · intro echoed hne hb
    subst hb
    simp [optimisticId, hne]
  · intro hb
    rcases hb with hb | hb <;> subst hb <;> rfl
  · simp only [bpDisplay, bpComponentDisplay, temperatureObservation, jsStr, truthyOr]
    rw [String.append_assoc]
    congr 1

theorem create_optimistic_prepend_witness :
    (createTemperatureObservation { initialFeedState with temperatureValue := "36.6" }
        "pat-1" 0 (.ok (some (some "obs-1")))).state.displayedObservations.head? =
      some { resource := some { temperatureObservation "pat-1" 0 (parseFloatJs "36.6") with
        id := some "obs-1" } } := by
  have h := create_optimistic_prepend { initialFeedState with temperatureValue := "36.6" }
    "pat-1" 0 (some (some "obs-1")) (by decide)
  simpa using h.2.2.1

/-! ## C6 — delayed reconciliation -/

/-- C6: a successful create schedules a reconciliation after the fixed
1000 ms delay; the reconciliation calls `getVitals` with the cache bypassed
(a network request is made unconditionally, even when the cached bundle is
fresh), and on completion the whole local collection is replaced by the
fetched bundle's entries (sorted), with the window reset to the first page. -/
theorem reconcile_spec :
    (∀ (st : FeedState) (now : Int) (b : Bundle),
      (reconcileStep st now (some b)).2 = true
      ∧ (reconcileStep st now (some b)).1.allObservations =
          sortJs cmpEntries (getVitalsEntries b)
      ∧ (reconcileStep st now (some b)).1.currentPage = 0
      ∧ (reconcileStep st now (some b)).1.displayedObservations =
          (sortJs cmpEntries (getVitalsEntries b)).take itemsPerPage
      ∧ windowSize (reconcileStep st now (some b)).1 = itemsPerPage
      ∧ (reconcileStep st now (some b)).1.vitalObservations = some b)
    ∧ (∀ (st : FeedState) (patientId : String) (now : Int) (bodyId : Option (Option String)),
      ¬(st.temperatureValue = "" ∨ parseFloatJs st.temperatureValue = JsNumber.nan) →
      (createTemperatureObservation st patientId now (.ok bodyId)).reconcileDelayMs =
        some RECONCILE_DELAY)
    ∧ RECONCILE_DELAY = 1000 := by
  refine ⟨?_, ?_, rfl⟩
  · intro st now b
    have hg : getVitals st now true (some b) =
        ({ st with
           lastFetchTime := now, nextUrl := b.nextLink,
           hasMoreOnServer := b.nextLink.isSome }, some b, true) := by
      simp [getVitals]
    have hr : reconcileStep st now (some b) =
        (updateDisplayedObservations
          { st with
            lastFetchTime := now, nextUrl := b.nextLink,
            hasMoreOnServer := b.nextLink.isSome, vitalObservations := some b,
            allObservations := [], currentPage := 0 }, true) := by
      simp only [reconcileStep, hg]
    rw [hr]
    rw [updateDisplayed_of_nil_some _ b rfl rfl]
    simp [windowSize]
  · intro st patientId now bodyId hval
    rw [createTemperatureObservation, if_neg hval]

theorem reconcile_spec_witness :
    (createTemperatureObservation { initialFeedState with temperatureValue := "37" }
      "pat-1" 0 (.ok none)).reconcileDelayMs = some 1000 := by
  have h := reconcile_spec.2.1 { initialFeedState with temperatureValue := "37" }
    "pat-1" 0 none (by decide)
  simpa using h

/-! ## C7 — window invariant -/

/-- The feed's structural invariant: the displayed list is the window prefix
of the loaded collection, and an empty collection coexists with a cached
bundle only when that bundle's entries sort to the empty list (so the lazy
re-initialization inside `updateDisplayedObservations` cannot change it). -/
def FeedInv (st : FeedState) : Prop :=
  st.displayedObservations = st.allObservations.take (windowSize st)
  ∧ (st.allObservations = [] → ∀ b, st.vitalObservations = some b →
      sortJs cmpEntries (getVitalsEntries b) = [])

theorem feedInv_update (s : FeedState) : FeedInv (updateDisplayedObservations s) := by
  by_cases h : s.allObservations = []
  · cases hb : s.vitalObservations with
    | none =>
      rw [updateDisplayed_of_nil_none s h hb]
      refine ⟨?_, ?_⟩
      · simp [windowSize, h]
      · intro _ b hbb
        rw [hb] at hbb
        cases hbb
    | some b =>
      rw [updateDisplayed_of_nil_some s b h hb]
      refine ⟨rfl, ?_⟩
      · intro h0 b' hbb
        have hb' : b' = b := by
          rw [hb] at hbb
          cases hbb
          rfl
        rw [hb']
        exact h0
  · rw [updateDisplayed_of_ne_nil s h]
    refine ⟨rfl, fun h0 => absurd h0 h⟩

theorem updateDisplayed_currentPage (s : FeedState) :
    (updateDisplayedObservations s).currentPage = s.currentPage := by
  by_cases h : s.allObservations = []
  · cases hb : s.vitalObservations with
    | none => rw [updateDisplayed_of_nil_none s h hb]
    | some b => rw [updateDisplayed_of_nil_some s b h hb]
  · rw [updateDisplayed_of_ne_nil s h]

theorem loadMore_currentPage (st : FeedState) (r : Option Bundle) :
    (loadMore st r).currentPage = st.currentPage + 1 := by
  simp only [loadMore, updateDisplayed_currentPage]
  split
  · cases st.nextUrl with
    | none => rfl
    | some u =>
      cases r with
      | none => rfl
      | some b => rfl
  · rfl

theorem reachable_inv (st : FeedState) (h : Reachable st) : FeedInv st := by
  induction h with
  | mount now response =>
    cases response with
    | none =>
      have hm : mountFeed now none =
          { initialFeedState with errorMsg := some "fetch failed", loading := false } := by
        simp [mountFeed, getVitals, initialFeedState]
      rw [hm]
      exact ⟨rfl, fun _ b hb => by cases hb⟩
    | some b =>
      have hm : mountFeed now (some b) =
          updateDisplayedObservations
            { initialFeedState with
              lastFetchTime := now, nextUrl := b.nextLink,
              hasMoreOnServer := b.nextLink.isSome, vitalObservations := some b,
              loading := false } := by
        simp [mountFeed, getVitals, initialFeedState]
      rw [hm]
      exact feedInv_update _
  | more st response _ _ =>
    exact feedInv_update _
  | created st patientId now post _ ih =>
    by_cases hval : st.temperatureValue = "" ∨ parseFloatJs st.temperatureValue = JsNumber.nan
    · rw [createTemperatureObservation, if_pos hval]
      exact ih
    · rw [createTemperatureObservation, if_neg hval]
      cases post with
      | err msg => exact ih
      | ok bodyId => exact feedInv_update _
  | reconciled st now response _ ih =>
    cases response with
    | none => exact ih
    | some b => exact feedInv_update _
  | toggled st _ ih => exact ih
  | typed st s _ ih => exact ih

/-- C7: at every reachable feed state the displayed list has length
`min (windowSize, allLoaded.length)` (indeed it *is* the window prefix), and
every `loadMore` call grows the window by exactly one page increment. -/
theorem window_invariant :
    (∀ st, Reachable st →
      st.displayedObservations.length = min (windowSize st) st.allObservations.length
      ∧ st.displayedObservations = st.allObservations.take (windowSize st))
    ∧ (∀ (st : FeedState) (response : Option Bundle),
      windowSize (loadMore st response) = windowSize st + itemsPerPage) := by
  constructor
  · intro st h
    have h1 := (reachable_inv st h).1
    refine ⟨?_, h1⟩
    rw [h1, List.length_take]
  · intro st response
    simp [windowSize, loadMore_currentPage, Nat.add_mul, Nat.succ_mul]

theorem window_invariant_witness :
    ((mountFeed 0 none).displayedObservations.length =
      min (windowSize (mountFeed 0 none)) (mountFeed 0 none).allObservations.length
     ∧ (mountFeed 0 none).displayedObservations =
        (mountFeed 0 none).allObservations.take (windowSize (mountFeed 0 none)))
    ∧ windowSize (loadMore (mountFeed 0 none) none) =
        windowSize (mountFeed 0 none) + itemsPerPage :=
  ⟨window_invariant.1 (mountFeed 0 none) (Reachable.mount 0 none),
   window_invariant.2 (mountFeed 0 none) none⟩

/-! ## C8 — saturated loadMore is a no-op -/

/-- Iterated `loadMore` with a stream of network responses. -/
def iterLoadMore : Nat → (Nat → Option Bundle) → FeedState → FeedState
  | 0, _, st => st
  | n + 1, resp, st => iterLoadMore n (fun k => resp (k + 1)) (loadMore st (resp 0))

theorem loadMore_saturated_step (st : FeedState) (r : Option Bundle)
    (hinv : FeedInv st) (hs : st.hasMoreOnServer = false)
    (hlen : st.allObservations.length ≤ windowSize st) :
    (loadMore st r).allObservations = st.allObservations
    ∧ (loadMore st r).displayedObservations = st.displayedObservations
    ∧ (loadMore st r).nextUrl = st.nextUrl
    ∧ (loadMore st r).hasMoreOnServer = false
    ∧ (loadMore st r).currentPage = st.currentPage + 1 := by
  have hguardF : ¬(st.allObservations.length < (st.currentPage + 2) * itemsPerPage ∧
      st.hasMoreOnServer = true ∧ ¬st.isLoadingMore = true) := by
    rintro ⟨-, h2, -⟩
    rw [hs] at h2
    cases h2
  have hLM : loadMore st r =
      updateDisplayedObservations { st with currentPage := st.currentPage + 1 } := by
    simp only [loadMore]
    rw [if_neg hguardF]
  rw [hLM]
  by_cases h : st.allObservations = []
  · have hd : st.displayedObservations = [] := by
      rw [hinv.1, h, List.take_nil]
    cases hb : st.vitalObservations with
    | none =>
      rw [updateDisplayed_of_nil_none _ (by simpa using h) (by simp [hb])]
      exact ⟨rfl, by simpa using hd.symm, rfl, hs, rfl⟩
    | some b =>
      have hsort : sortJs cmpEntries (getVitalsEntries b) = [] := hinv.2 h b hb
      rw [updateDisplayed_of_nil_some _ b (by simpa using h) (by simp [hb])]
      refine ⟨?_, ?_, rfl, hs, rfl⟩
      · simpa [hsort] using h.symm
      · simp [hsort, hd]
  · rw [updateDisplayed_of_ne_nil _ (by simpa using h)]
    refine ⟨rfl, ?_, rfl, hs, rfl⟩
    have h1 : st.allObservations.take ((st.currentPage + 1 + 1) * itemsPerPage) =
        st.allObservations := by
      refine List.take_of_length_le (le_trans hlen ?_)
      exact Nat.mul_le_mul_right itemsPerPage (by omega)
    have h2 : st.displayedObservations = st.allObservations :=
      hinv.1.trans (List.take_of_length_le hlen)
    simpa [h1] using h2.symm

theorem hasMore_false_of (s : FeedState) (h1 : s.hasMoreOnServer = false)
    (h2 : s.allObservations.length ≤ (s.currentPage + 1) * itemsPerPage) :
    hasMore s = false := by
  simp [hasMore, h1]
  omega

theorem loadMore_iter_aux (n : Nat) : ∀ (st : FeedState) (resp : Nat → Option Bundle),
    Reachable st → st.nextUrl = none → st.hasMoreOnServer = false →
    st.allObservations.length ≤ windowSize st →
    ((iterLoadMore n resp st).allObservations = st.allObservations
     ∧ (iterLoadMore n resp st).displayedObservations = st.displayedObservations
     ∧ (iterLoadMore n resp st).nextUrl = none
     ∧ (iterLoadMore n resp st).hasMoreOnServer = false
     ∧ (iterLoadMore n resp st).allObservations.length ≤
         windowSize (iterLoadMore n resp st)
     ∧ Reachable (iterLoadMore n resp st)) := by
  induction n with
  | zero =>
    intro st resp hr hn hs hlen
    exact ⟨rfl, rfl, hn, hs, hlen, hr⟩
  | succ m ih =>
    intro st resp hr hn hs hlen
    have hstep := loadMore_saturated_step st (resp 0) (reachable_inv st hr) hs hlen
    have hr1 : Reachable (loadMore st (resp 0)) := Reachable.more st (resp 0) hr
    have hn1 : (loadMore st (resp 0)).nextUrl = none := by rw [hstep.2.2.1, hn]
    have hs1 : (loadMore st (resp 0)).hasMoreOnServer = false := hstep.2.2.2.1
    have hlen1 : (loadMore st (resp 0)).allObservations.length ≤
        windowSize (loadMore st (resp 0)) := by
      rw [hstep.1]
      refine le_trans hlen ?_
      unfold windowSize
      rw [hstep.2.2.2.2]
      exact Nat.mul_le_mul_right itemsPerPage (by omega)
    have hiter := ih (loadMore st (resp 0)) (fun k => resp (k + 1)) hr1 hn1 hs1 hlen1
    refine ⟨hiter.1.trans hstep.1, hiter.2.1.trans hstep.2.1, hiter.2.2.1,
      hiter.2.2.2.1, hiter.2.2.2.2.1, hiter.2.2.2.2.2⟩

/-- C8: from any reachable state with no server cursor and a collection that
fits in the window, `hasMore` is false and any number of `loadMore` calls
(whatever the network would answer) leaves the displayed list, the loaded
collection and the server cursor unchanged — only the window advances past
the end. -/
theorem loadMore_saturated_noop (st : FeedState) (hr : Reachable st)
    (hn : st.nextUrl = none) (hs : st.hasMoreOnServer = false)
    (hlen : st.allObservations.length ≤ windowSize st) :
    hasMore st = false
    ∧ ∀ (n : Nat) (resp : Nat → Option Bundle),
      hasMore (iterLoadMore n resp st) = false
      ∧ (iterLoadMore n resp st).allObservations = st.allObservations
      ∧ (iterLoadMore n resp st).displayedObservations = st.displayedObservations
      ∧ (iterLoadMore n resp st).nextUrl = none
      ∧ (iterLoadMore n resp st).hasMoreOnServer = false := by
  refine ⟨hasMore_false_of st hs hlen, ?_⟩
  intro n resp
  have h := loadMore_iter_aux n st resp hr hn hs hlen
  exact ⟨hasMore_false_of _ h.2.2.2.1 h.2.2.2.2.1, h.1, h.2.1, h.2.2.1, h.2.2.2.1⟩

theorem loadMore_saturated_noop_witness :
    (let st := mountFeed 0 (some { entry := some [], nextLink := none })
     hasMore st = false
     ∧ hasMore (iterLoadMore 3 (fun _ => none) st) = false
     ∧ (iterLoadMore 3 (fun _ => none) st).allObservations = st.allObservations
     ∧ (iterLoadMore 3 (fun _ => none) st).displayedObservations =
         st.displayedObservations
     ∧ (iterLoadMore 3 (fun _ => none) st).nextUrl = none
     ∧ (iterLoadMore 3 (fun _ => none) st).hasMoreOnServer = false) := by
  have h := loadMore_saturated_noop (mountFeed 0 (some { entry := some [], nextLink := none }))
    (Reachable.mount 0 (some { entry := some [], nextLink := none }))
    (by decide) (by decide) (by decide)
  exact ⟨h.1, (h.2 3 (fun _ => none)).1, (h.2 3 (fun _ => none)).2.1,
    (h.2 3 (fun _ => none)).2.2.1, (h.2 3 (fun _ => none)).2.2.2.1,
    (h.2 3 (fun _ => none)).2.2.2.2⟩

/-! ## C9 — create error handling -/

/-- C9: an empty or unparseable input makes the create call set the local
validation error and return with no POST and every other piece of state
untouched; and when the POST itself throws, the state afterwards is exactly
the prior state with `creating` reset, `createSuccess` cleared and the error
recorded — no optimistic entry, the displayed window, collection, cursor and
the open form all unchanged. -/
theorem create_error_handling :
    (∀ (st : FeedState) (patientId : String) (now : Int) (post : PostOutcome),
      st.temperatureValue = "" ∨ parseFloatJs st.temperatureValue = JsNumber.nan →
      createTemperatureObservation st patientId now post =
        { state := { st with createError := some "Please enter a valid temperature value" },
          posted := none, reconcileDelayMs := none })
    ∧ (∀ (st : FeedState) (patientId : String) (now : Int) (msg : String),
      ¬(st.temperatureValue = "" ∨ parseFloatJs st.temperatureValue = JsNumber.nan) →
      createTemperatureObservation st patientId now (.err msg) =
        { state := { st with
            creating := false, createError := some msg, createSuccess := false },
          posted := some (temperatureObservation patientId now
            (parseFloatJs st.temperatureValue)),
          reconcileDelayMs := none }) := by
  constructor
  · intro st patientId now post hval
    rw [createTemperatureObservation, if_pos hval]
  · intro st patientId now msg hval
    rw [createTemperatureObservation, if_neg hval]

theorem create_error_handling_witness :
    (createTemperatureObservation { initialFeedState with showCreateForm := true }
        "pat-1" 0 (.ok none) =
      { state := { initialFeedState with
          showCreateForm := true,
          createError := some "Please enter a valid temperature value" },
        posted := none, reconcileDelayMs := none })
    ∧ (createTemperatureObservation
        { initialFeedState with showCreateForm := true, temperatureValue := "36.6" }
        "pat-1" 0 (.err "HTTP 500") =
      { state := { initialFeedState with
          showCreateForm := true, temperatureValue := "36.6",
          creating := false, createError := some "HTTP 500", createSuccess := false },
        posted := some (temperatureObservation "pat-1" 0 (parseFloatJs "36.6")),
        reconcileDelayMs := none }) :=
  ⟨create_error_handling.1 { initialFeedState with showCreateForm := true }
      "pat-1" 0 (.ok none) (by decide),
   create_error_handling.2
      { initialFeedState with showCreateForm := true, temperatureValue := "36.6" }
      "pat-1" 0 "HTTP 500" (by decide)⟩

/-! ## C10 — parseFloat validation -/

/-- C10: validation is decided by JS `parseFloat` on the input's longest
numeric prefix — no POST happens exactly when the input is empty or has no
parseable numeric prefix; otherwise the POST carries exactly the parsed
prefix value.  In particular `"36.6abc"` passes validation and posts 36.6. -/
theorem parseFloat_validation :
    (∀ (st : FeedState) (patientId : String) (now : Int) (post : PostOutcome),
      ((createTemperatureObservation st patientId now post).posted = none ↔
        (st.temperatureValue = "" ∨ parseFloatJs st.temperatureValue = JsNumber.nan)))
    ∧ (∀ (st : FeedState) (patientId : String) (now : Int) (post : PostOutcome),
      ¬(st.temperatureValue = "" ∨ parseFloatJs st.temperatureValue = JsNumber.nan) →
      (createTemperatureObservation st patientId now post).posted =
        some (temperatureObservation patientId now (parseFloatJs st.temperatureValue)))
    ∧ parseFloatJs "36.6abc" = .num 366 1
    ∧ (temperatureObservation "pat-1" 0 (parseFloatJs "36.6abc")).valueQuantity =
        some { value := some (.num 366 1), unit := some "degC",
               system := some "http://unitsofmeasure.org", code := some "Cel" } := by
  have hposted : ∀ (st : FeedState) (patientId : String) (now : Int) (post : PostOutcome),
      ¬(st.temperatureValue = "" ∨ parseFloatJs st.temperatureValue = JsNumber.nan) →
      (createTemperatureObservation st patientId now post).posted =
        some (temperatureObservation patientId now (parseFloatJs st.temperatureValue)) := by
    intro st patientId now post hval
    rw [createTemperatureObservation, if_neg hval]
    cases post with
    | err msg => rfl
    | ok bodyId => rfl
  refine ⟨?_, hposted, by decide, by decide⟩
  intro st patientId now post
  by_cases hval : st.temperatureValue = "" ∨ parseFloatJs st.temperatureValue = JsNumber.nan
  · rw [createTemperatureObservation, if_pos hval]
    simpa using hval
  · rw [hposted st patientId now post hval]
    simpa using hval

theorem parseFloat_validation_witness :
    (createTemperatureObservation { initialFeedState with temperatureValue := "36.6abc" }
        "pat-1" 0 (.ok (some (some "obs-1")))).posted =
      some (temperatureObservation "pat-1" 0 (.num 366 1)) := by
  have h := parseFloat_validation.2.1
    { initialFeedState with temperatureValue := "36.6abc" }
    "pat-1" 0 (.ok (some (some "obs-1"))) (by decide)
  simpa using h
